import Mathlib

/-!
Shallow embedding of the client-side round coordinator in
`src/frontend/src/App.svelte` (pokerbot frontend): the phase state machine,
bet-limit clamping, action dispatch, deal-step guards, and the hand-reveal
gating of the player grid template. Numeric game quantities (chips, pot,
current bet) are natural numbers; the UI-bound bet amount and limits are
integers, matching the JavaScript number values they hold.
-/

set_option autoImplicit false

namespace Pokerbot

/-- Suit enum from `src/frontend/src/lib/types.ts`. -/
inductive Suit
  | Hearts | Diamonds | Clubs | Spades
deriving DecidableEq, Repr

/-- Rank enum from `src/frontend/src/lib/types.ts`. -/
inductive Rank
  | Two | Three | Four | Five | Six | Seven | Eight | Nine | Ten
  | Jack | Queen | King | Ace
deriving DecidableEq, Repr

/-- Card record from `src/frontend/src/lib/types.ts`. -/
structure Card where
  suit : Suit
  rank : Rank
deriving DecidableEq, Repr

/-- Action type strings used by `App.svelte` (`'Fold' | 'Check' | 'Call' | 'Bet' | 'Raise'`). -/
inductive ActionType
  | Fold | Check | Call | Bet | Raise
deriving DecidableEq, Repr

/-- Action payload: `handleAction` posts `{ action_type, amount }` and reads
`gameState.last_action?.action_type`. -/
structure Action where
  action_type : ActionType
  amount : Option Int
deriving DecidableEq, Repr

/-- Robot personality metadata rendered in the player header. -/
structure Personality where
  style : String
  description : String
deriving DecidableEq, Repr

/-- Player record, fields as read by `App.svelte`
(`player.name`, `player.chips`, `player.cards`, `player.is_robot`,
`player.win_probability`, `player.personality`). -/
structure Player where
  name : String
  chips : Nat
  cards : List Card
  is_robot : Bool
  win_probability : Float
  personality : Option Personality

/-- Game state payload returned by the engine, fields as read by `App.svelte`
(`players`, `community_cards`, `pot`, `current_bet`, `current_player`,
`last_action`). -/
structure GameState where
  players : List Player
  community_cards : List Card
  pot : Nat
  current_bet : Nat
  current_player : Nat
  last_action : Option Action

/-- Round phase: the `gamePhase` variable of `App.svelte`. -/
inductive GamePhase
  | preflop | flop | turn | river | showdown
deriving DecidableEq, Repr

/-- Game mode: the `gameMode` variable (`'Simulation' | 'RobotPlay'`). -/
inductive GameMode
  | Simulation | RobotPlay
deriving DecidableEq, Repr

/-- Component-level mutable state of `App.svelte`: the script's top-level
`let` bindings. -/
structure AppState where
  gameState : Option GameState
  gamePhase : GamePhase
  error : Option String
  numPlayers : Nat
  gameMode : GameMode
  startingChips : Nat
  betAmount : Int
  minRaise : Int
  maxBet : Int
  showRobotCards : Bool

/-- Minimum raise computed by `updateBetLimits`:
`Math.max(gameState.current_bet * 2, 10)`. -/
def computeMinRaise (current_bet : Nat) : Nat :=
  max (current_bet * 2) 10

/-- Clamping pipeline applied to `betAmount` inside `updateBetLimits`:
raise to `minRaise` if below, lower to `maxBet` if above, and replace a
resulting `0` by `minRaise`. -/
def clampBetAmount (betAmount minRaise maxBet : Int) : Int :=
  let b1 := if betAmount < minRaise then minRaise else betAmount
  let b2 := if b1 > maxBet then maxBet else b1
  if b2 = 0 then minRaise else b2

/-- The `updateBetLimits` function of `App.svelte`: when a game state with at
least one player is held, recompute `minRaise` and `maxBet` from the state
(player 0 is the human player) and clamp `betAmount`; otherwise reset all
three to `0`. -/
def updateBetLimits (s : AppState) : AppState :=
  match s.gameState with
  | some g =>
    match g.players with
    | player :: _ =>
      let minRaise : Int := (computeMinRaise g.current_bet : Nat)
      let maxBet : Int := (player.chips : Nat)
      { s with minRaise := minRaise, maxBet := maxBet,
               betAmount := clampBetAmount s.betAmount minRaise maxBet }
    | [] => { s with minRaise := 0, maxBet := 0, betAmount := 0 }
  | none => { s with minRaise := 0, maxBet := 0, betAmount := 0 }

/-- The `setQuickBet` function of `App.svelte`:
`betAmount = Math.min(Math.floor(gameState.pot * percentage), maxBet)`.
The preset percentages 1/4, 1/2, 3/4, 1 are passed as the exact fraction
`num / den`; `Math.floor` on these exactly-representable products is natural
number division. -/
def setQuickBet (s : AppState) (num den : Nat) : AppState :=
  match s.gameState with
  | some g => { s with betAmount := min ((g.pot * num / den : Nat) : Int) s.maxBet }
  | none => s

/-- Query parameters of the `/new-game` request built by `startNewGame`:
`num_players` is `gameMode === 'RobotPlay' ? 2 : numPlayers`. -/
structure NewGameRequest where
  num_players : Nat
  game_mode : GameMode
  starting_chips : Nat
deriving DecidableEq, Repr

/-- Request construction in `startNewGame` (line
`const players = gameMode === 'RobotPlay' ? 2 : numPlayers`). -/
def newGameRequest (s : AppState) : NewGameRequest :=
  { num_players := if s.gameMode == GameMode.RobotPlay then 2 else s.numPlayers,
    game_mode := s.gameMode,
    starting_chips := s.startingChips }

/-- Outcome of the `POST /player-action` round trip as observed by
`handleAction`: a parsed `{ Ok }` or `{ Err }` body, a body with neither tag,
a non-success HTTP status (`!response.ok` throws
`HTTP error! status: N`), or a rejected fetch carrying an error message. -/
inductive ActionResponse
  | ok (g : GameState)
  | err (msg : String)
  | invalid
  | httpError (status : Nat)
  | networkError (msg : String)

/-- Outcome of a `GET /deal-*` round trip as observed by the deal functions:
a game-state body, a non-success HTTP status, or a rejected fetch. -/
inductive DealResponse
  | ok (g : GameState)
  | httpError (status : Nat)
  | networkError (msg : String)

/-- Error message produced for a non-success HTTP status:
`throw new Error(\x60HTTP error! status: ${response.status}\x60)`. -/
def httpErrorMessage (status : Nat) : String :=
  "HTTP error! status: " ++ toString status

/-- The `dealFlop` function of `App.svelte`: silently return unless the phase
is `preflop`; otherwise clear the error, fetch `/deal-flop`, and on success
replace the game state and set the phase to `flop`; a transport failure is
caught and stored in `error`. -/
def dealFlop (s : AppState) (resp : DealResponse) : AppState :=
  if s.gamePhase ≠ GamePhase.preflop then s
  else
    match resp with
    | .ok g => { s with error := none, gameState := some g, gamePhase := GamePhase.flop }
    | .httpError status => { s with error := some (httpErrorMessage status) }
    | .networkError msg => { s with error := some msg }

/-- The `dealTurn` function of `App.svelte`: same shape as `dealFlop`, guarded
on phase `flop` and advancing to `turn`. -/
def dealTurn (s : AppState) (resp : DealResponse) : AppState :=
  if s.gamePhase ≠ GamePhase.flop then s
  else
    match resp with
    | .ok g => { s with error := none, gameState := some g, gamePhase := GamePhase.turn }
    | .httpError status => { s with error := some (httpErrorMessage status) }
    | .networkError msg => { s with error := some msg }

/-- The `dealRiver` function of `App.svelte`: same shape as `dealFlop`,
guarded on phase `turn` and advancing to `river`. -/
def dealRiver (s : AppState) (resp : DealResponse) : AppState :=
  if s.gamePhase ≠ GamePhase.turn then s
  else
    match resp with
    | .ok g => { s with error := none, gameState := some g, gamePhase := GamePhase.river }
    | .httpError status => { s with error := some (httpErrorMessage status) }
    | .networkError msg => { s with error := some msg }

/-- Test performed by `handleAction` on the freshly applied state:
`gameState.last_action?.action_type === 'Call' ||
 gameState.last_action?.action_type === 'Check'`. -/
def isCallOrCheck (a : Option Action) : Bool :=
  match a with
  | some act => act.action_type == ActionType.Call || act.action_type == ActionType.Check
  | none => false

/-- The `handleAction` function of `App.svelte`. On an `Ok` response the game
state is replaced, bet limits are recomputed, and if the applied action is a
Call or Check the round auto-advances: `preflop`/`flop`/`turn` chain into the
corresponding deal request (whose own outcome is `deal`), while `river` moves
straight to `showdown` and reveals the robots' cards. An `Err` body, a
malformed body, or a transport failure is caught and stored in `error`,
leaving every other field untouched. -/
def handleAction (s : AppState) (resp : ActionResponse) (deal : DealResponse) : AppState :=
  match resp with
  | .ok g =>
    let s1 := updateBetLimits { s with gameState := some g, error := none }
    if isCallOrCheck g.last_action then
      match s.gamePhase with
      | .preflop => dealFlop s1 deal
      | .flop => dealTurn s1 deal
      | .turn => dealRiver s1 deal
      | .river => { s1 with gamePhase := GamePhase.showdown, showRobotCards := true }
      | .showdown => s1
    else s1
  | .err msg => { s with error := some msg }
  | .invalid => { s with error := some "Invalid response from server" }
  | .httpError status => { s with error := some (httpErrorMessage status) }
  | .networkError msg => { s with error := some msg }

/-- Outcome of the `GET /new-game` round trip. -/
inductive NewGameResponse
  | ok (g : GameState)
  | httpError (status : Nat)
  | networkError (msg : String)

/-- The `startNewGame` function of `App.svelte`: on success replace the game
state, reset the phase to `preflop`, recompute bet limits and hide robot
cards; a transport failure is caught and stored in `error`. -/
def startNewGame (s : AppState) (resp : NewGameResponse) : AppState :=
  match resp with
  | .ok g =>
    let s1 := updateBetLimits
      { s with error := none, gameState := some g, gamePhase := GamePhase.preflop }
    { s1 with showRobotCards := false }
  | .httpError status => { s with error := some (httpErrorMessage status) }
  | .networkError msg => { s with error := some msg }

/-- Gate of the player section in the players-grid template:
`{#if !player.is_robot || gameMode === 'Simulation'}`. -/
def playerSectionRendered (mode : GameMode) (p : Player) : Bool :=
  !p.is_robot || (mode == GameMode.Simulation)

/-- Gate choosing face-up cards over card backs inside a rendered player
section: `{#if !player.is_robot || showRobotCards}`. -/
def playerCardsShown (showRobotCards : Bool) (p : Player) : Bool :=
  !p.is_robot || showRobotCards

/-- A player's hand is visible on screen when the player section is rendered
at all and the face-up branch is taken inside it. -/
def handVisible (mode : GameMode) (showRobotCards : Bool) (p : Player) : Bool :=
  playerSectionRendered mode p && playerCardsShown showRobotCards p

/-- Reveal rule as the specification words it: a hand is visible iff the
player is local, or the phase is Showdown, or the mode is Simulation. Stated
only for comparison with `handVisible`, which is read off the template. -/
def handVisibleSpec (mode : GameMode) (phase : GamePhase) (p : Player) : Bool :=
  !p.is_robot || (phase == GamePhase.showdown) || (mode == GameMode.Simulation)

/-- Evaluation of `player.cards.is_empty()` in the robot-status template.
JavaScript arrays have no `is_empty` method (`is_empty` is the Rust
idiom; the TypeScript spelling is `cards.length === 0`), so evaluating this
property access and call throws a `TypeError` at runtime. -/
def cardsIsEmpty (_cards : List Card) : Except String Bool :=
  Except.error "TypeError: player.cards.is_empty is not a function"

/-- Robot status indicator of the players-grid template
(`{#if gameMode === 'RobotPlay' && player.is_robot && !showRobotCards}` …
`{#if player.cards.is_empty()}` Folded … else Active): `none` when the block
is not rendered, otherwise the rendered label or the runtime error raised
while evaluating its guard. -/
def robotStatus (mode : GameMode) (showRobotCards : Bool) (p : Player) :
    Except String (Option String) :=
  if mode == GameMode.RobotPlay && p.is_robot && !showRobotCards then
    match cardsIsEmpty p.cards with
    | .ok true => Except.ok (some "Folded")
    | .ok false => Except.ok (some "Active")
    | .error e => Except.error e
  else Except.ok none

/-- One user-visible operation within a round: an action submission (with the
engine's response and, when the auto-advance chains into a deal request, that
deal's response) or one of the three manual deal steps. -/
inductive Op
  | action (resp : ActionResponse) (deal : DealResponse)
  | flop (resp : DealResponse)
  | turn (resp : DealResponse)
  | river (resp : DealResponse)

/-- Effect of one operation on the component state. -/
def step (s : AppState) (op : Op) : AppState :=
  match op with
  | .action resp deal => handleAction s resp deal
  | .flop resp => dealFlop s resp
  | .turn resp => dealTurn s resp
  | .river resp => dealRiver s resp

/-- Effect of a sequence of operations, applied left to right. -/
def run (s : AppState) (ops : List Op) : AppState :=
  ops.foldl step s

/-- Successor in the phase order `preflop → flop → turn → river → showdown`,
with the terminal `showdown` its own successor. -/
def nextPhase : GamePhase → GamePhase
  | .preflop => GamePhase.flop
  | .flop => GamePhase.turn
  | .turn => GamePhase.river
  | .river => GamePhase.showdown
  | .showdown => GamePhase.showdown

/-- Position of a phase in the order `preflop → flop → turn → river →
showdown`. -/
def phaseIdx : GamePhase → Nat
  | .preflop => 0
  | .flop => 1
  | .turn => 2
  | .river => 3
  | .showdown => 4

/-- Phases observed after each operation of a run (the starting phase is
observed separately, in front of this list). -/
def phaseTraceAux : AppState → List Op → List GamePhase
  | _, [] => []
  | s, op :: ops => (step s op).gamePhase :: phaseTraceAux (step s op) ops

/-! Field-preservation lemmas: `updateBetLimits` writes only the three
bet-limit fields, and the deal functions never write `showRobotCards`. -/

theorem updateBetLimits_eq (s : AppState) :
    ∃ ba mr mb : Int,
      updateBetLimits s = { s with betAmount := ba, minRaise := mr, maxBet := mb } := by
  obtain ⟨gs, ph, er, np, gm, sc, ba0, mr0, mb0, src⟩ := s
  cases gs with
  | none => exact ⟨0, 0, 0, rfl⟩
  | some g =>
    obtain ⟨ps, cc, pt, cb, cp, la⟩ := g
    cases ps with
    | nil => exact ⟨0, 0, 0, rfl⟩
    | cons p rest => exact ⟨_, _, _, rfl⟩

theorem updateBetLimits_gamePhase (s : AppState) :
    (updateBetLimits s).gamePhase = s.gamePhase := by
  obtain ⟨ba, mr, mb, h⟩ := updateBetLimits_eq s
  rw [h]

theorem updateBetLimits_showRobotCards (s : AppState) :
    (updateBetLimits s).showRobotCards = s.showRobotCards := by
  obtain ⟨ba, mr, mb, h⟩ := updateBetLimits_eq s
  rw [h]

theorem updateBetLimits_gameState (s : AppState) :
    (updateBetLimits s).gameState = s.gameState := by
  obtain ⟨ba, mr, mb, h⟩ := updateBetLimits_eq s
  rw [h]

theorem updateBetLimits_error (s : AppState) :
    (updateBetLimits s).error = s.error := by
  obtain ⟨ba, mr, mb, h⟩ := updateBetLimits_eq s
  rw [h]

theorem dealFlop_showRobotCards (s : AppState) (r : DealResponse) :
    (dealFlop s r).showRobotCards = s.showRobotCards := by
  unfold dealFlop
  split
  · rfl
  · cases r <;> rfl

theorem dealTurn_showRobotCards (s : AppState) (r : DealResponse) :
    (dealTurn s r).showRobotCards = s.showRobotCards := by
  unfold dealTurn
  split
  · rfl
  · cases r <;> rfl

theorem dealRiver_showRobotCards (s : AppState) (r : DealResponse) :
    (dealRiver s r).showRobotCards = s.showRobotCards := by
  unfold dealRiver
  split
  · rfl
  · cases r <;> rfl

theorem dealFlop_of_ne (s : AppState) (r : DealResponse)
    (h : s.gamePhase ≠ GamePhase.preflop) : dealFlop s r = s := by
  simp [dealFlop, h]

theorem dealTurn_of_ne (s : AppState) (r : DealResponse)
    (h : s.gamePhase ≠ GamePhase.flop) : dealTurn s r = s := by
  simp [dealTurn, h]

theorem dealRiver_of_ne (s : AppState) (r : DealResponse)
    (h : s.gamePhase ≠ GamePhase.turn) : dealRiver s r = s := by
  simp [dealRiver, h]

/-- Phase written by `dealFlop`: either untouched, or `flop` from `preflop`. -/
theorem dealFlop_gamePhase (s : AppState) (r : DealResponse) :
    (dealFlop s r).gamePhase = s.gamePhase ∨
      (s.gamePhase = GamePhase.preflop ∧ (dealFlop s r).gamePhase = GamePhase.flop) := by
  unfold dealFlop
  split
  · exact Or.inl rfl
  · rename_i h
    rw [not_not] at h
    cases r
    · exact Or.inr ⟨h, rfl⟩
    · exact Or.inl rfl
    · exact Or.inl rfl

theorem dealTurn_gamePhase (s : AppState) (r : DealResponse) :
    (dealTurn s r).gamePhase = s.gamePhase ∨
      (s.gamePhase = GamePhase.flop ∧ (dealTurn s r).gamePhase = GamePhase.turn) := by
  unfold dealTurn
  split
  · exact Or.inl rfl
  · rename_i h
    rw [not_not] at h
    cases r
    · exact Or.inr ⟨h, rfl⟩
    · exact Or.inl rfl
    · exact Or.inl rfl

theorem dealRiver_gamePhase (s : AppState) (r : DealResponse) :
    (dealRiver s r).gamePhase = s.gamePhase ∨
      (s.gamePhase = GamePhase.turn ∧ (dealRiver s r).gamePhase = GamePhase.river) := by
  unfold dealRiver
  split
  · exact Or.inl rfl
  · rename_i h
    rw [not_not] at h
    cases r
    · exact Or.inr ⟨h, rfl⟩
    · exact Or.inl rfl
    · exact Or.inl rfl

/-! Equation lemmas for `handleAction` on an `Ok` response, one per phase
branch. -/

theorem handleAction_ok_preflop (s : AppState) (g : GameState) (deal : DealResponse)
    (hcc : isCallOrCheck g.last_action = true) (h : s.gamePhase = GamePhase.preflop) :
    handleAction s (.ok g) deal =
      dealFlop (updateBetLimits { s with gameState := some g, error := none }) deal := by
  simp [handleAction, hcc, h]

theorem handleAction_ok_flop (s : AppState) (g : GameState) (deal : DealResponse)
    (hcc : isCallOrCheck g.last_action = true) (h : s.gamePhase = GamePhase.flop) :
    handleAction s (.ok g) deal =
      dealTurn (updateBetLimits { s with gameState := some g, error := none }) deal := by
  simp [handleAction, hcc, h]

theorem handleAction_ok_turn (s : AppState) (g : GameState) (deal : DealResponse)
    (hcc : isCallOrCheck g.last_action = true) (h : s.gamePhase = GamePhase.turn) :
    handleAction s (.ok g) deal =
      dealRiver (updateBetLimits { s with gameState := some g, error := none }) deal := by
  simp [handleAction, hcc, h]

theorem handleAction_ok_river (s : AppState) (g : GameState) (deal : DealResponse)
    (hcc : isCallOrCheck g.last_action = true) (h : s.gamePhase = GamePhase.river) :
    handleAction s (.ok g) deal =
      { updateBetLimits { s with gameState := some g, error := none } with
          gamePhase := GamePhase.showdown, showRobotCards := true } := by
  simp [handleAction, hcc, h]

theorem handleAction_ok_showdown (s : AppState) (g : GameState) (deal : DealResponse)
    (hcc : isCallOrCheck g.last_action = true) (h : s.gamePhase = GamePhase.showdown) :
    handleAction s (.ok g) deal =
      updateBetLimits { s with gameState := some g, error := none } := by
  simp [handleAction, hcc, h]

theorem handleAction_ok_noAdvance (s : AppState) (g : GameState) (deal : DealResponse)
    (hcc : isCallOrCheck g.last_action = false) :
    handleAction s (.ok g) deal =
      updateBetLimits { s with gameState := some g, error := none } := by
  simp [handleAction, hcc]

/-- The phase written by `handleAction` is the incoming phase or its
immediate successor. -/
theorem handleAction_gamePhase (s : AppState) (resp : ActionResponse) (deal : DealResponse) :
    (handleAction s resp deal).gamePhase = s.gamePhase ∨
      (handleAction s resp deal).gamePhase = nextPhase s.gamePhase := by
  cases resp with
  | err m => exact Or.inl rfl
  | invalid => exact Or.inl rfl
  | httpError st => exact Or.inl rfl
  | networkError m => exact Or.inl rfl
  | ok g =>
    by_cases hcc : isCallOrCheck g.last_action
    · cases h : s.gamePhase with
      | preflop =>
        rw [handleAction_ok_preflop s g deal hcc h]
        rcases dealFlop_gamePhase (updateBetLimits { s with gameState := some g, error := none })
            deal with h2 | ⟨_, h2⟩
        · left
          rw [h2, updateBetLimits_gamePhase]
          exact h
        · right
          rw [h2]
          rfl
      | flop =>
        rw [handleAction_ok_flop s g deal hcc h]
        rcases dealTurn_gamePhase (updateBetLimits { s with gameState := some g, error := none })
            deal with h2 | ⟨_, h2⟩
        · left
          rw [h2, updateBetLimits_gamePhase]
          exact h
        · right
          rw [h2]
          rfl
      | turn =>
        rw [handleAction_ok_turn s g deal hcc h]
        rcases dealRiver_gamePhase (updateBetLimits { s with gameState := some g, error := none })
            deal with h2 | ⟨_, h2⟩
        · left
          rw [h2, updateBetLimits_gamePhase]
          exact h
        · right
          rw [h2]
          rfl
      | river =>
        rw [handleAction_ok_river s g deal hcc h]
        right
        rfl
      | showdown =>
        rw [handleAction_ok_showdown s g deal hcc h]
        left
        rw [updateBetLimits_gamePhase]
        exact h
    · rw [handleAction_ok_noAdvance s g deal (Bool.eq_false_iff.mpr hcc)]
      left
      rw [updateBetLimits_gamePhase]

/-- Any single operation leaves the phase in place or moves it to its
immediate successor. -/
theorem step_gamePhase (s : AppState) (op : Op) :
    (step s op).gamePhase = s.gamePhase ∨
      (step s op).gamePhase = nextPhase s.gamePhase := by
  cases op with
  | action resp deal => exact handleAction_gamePhase s resp deal
  | flop r =>
    rcases dealFlop_gamePhase s r with h | ⟨hph, h⟩
    · exact Or.inl h
    · exact Or.inr (by show (dealFlop s r).gamePhase = _; rw [h, hph]; rfl)
  | turn r =>
    rcases dealTurn_gamePhase s r with h | ⟨hph, h⟩
    · exact Or.inl h
    · exact Or.inr (by show (dealTurn s r).gamePhase = _; rw [h, hph]; rfl)
  | river r =>
    rcases dealRiver_gamePhase s r with h | ⟨hph, h⟩
    · exact Or.inl h
    · exact Or.inr (by show (dealRiver s r).gamePhase = _; rw [h, hph]; rfl)

/-- Behaviour of the clamping pipeline: inside `[minRaise, maxBet]` when the
range is non-empty; forced to `maxBet` when the ceiling is positive but below
`minRaise`; bounced back to `minRaise` when the ceiling is `0`; never
negative. -/
theorem clampBetAmount_spec (a mr mb : Int) (h10 : 10 ≤ mr) (hmb : 0 ≤ mb) :
    (mr ≤ mb → mr ≤ clampBetAmount a mr mb ∧ clampBetAmount a mr mb ≤ mb)
    ∧ (mb < mr → 0 < mb → clampBetAmount a mr mb = mb)
    ∧ (mb = 0 → clampBetAmount a mr mb = mr)
    ∧ 0 ≤ clampBetAmount a mr mb := by
  simp only [clampBetAmount]
  split_ifs <;> omega

/-- The coerced minimum raise is at least 10. -/
theorem computeMinRaise_ge (current_bet : Nat) :
    (10 : Int) ≤ (computeMinRaise current_bet : Nat) := by
  unfold computeMinRaise
  push_cast
  omega

/-- Monotonicity of the minimum raise in the current bet. -/
theorem computeMinRaise_mono (c c' : Nat) (h : c ≤ c') :
    computeMinRaise c ≤ computeMinRaise c' := by
  unfold computeMinRaise
  omega

theorem phaseIdx_le_next (ph : GamePhase) : phaseIdx ph ≤ phaseIdx (nextPhase ph) := by
  cases ph <;> decide

/-! Concrete sample data used by witnesses and counterexamples. -/

/-- Local player with the given chip stack. -/
def samplePlayer (chips : Nat) : Player :=
  { name := "You", chips := chips, cards := [], is_robot := false,
    win_probability := 0.0, personality := none }

/-- Remote-controlled (robot) player holding no cards. -/
def sampleRobot : Player :=
  { name := "Robot 1", chips := 1000, cards := [], is_robot := true,
    win_probability := 0.0, personality := none }

/-- Remote-controlled (robot) player holding two cards. -/
def sampleRobotWithCards : Player :=
  { sampleRobot with cards := [⟨Suit.Hearts, Rank.Ace⟩, ⟨Suit.Spades, Rank.King⟩] }

/-- Two-player game state with the given human chips, current bet, pot, and
last action. -/
def sampleGame (chips current_bet pot : Nat) (last : Option Action) : GameState :=
  { players := [samplePlayer chips, sampleRobot], community_cards := [],
    pot := pot, current_bet := current_bet, current_player := 0, last_action := last }

/-- Component state with the given game state, phase, mode and bet amount;
the other fields take their initial values from `App.svelte`. -/
def sampleApp (g : Option GameState) (phase : GamePhase) (mode : GameMode)
    (betAmount : Int) : AppState :=
  { gameState := g, gamePhase := phase, error := none, numPlayers := 2,
    gameMode := mode, startingChips := 1000, betAmount := betAmount,
    minRaise := 0, maxBet := 0, showRobotCards := false }

/-- State used by several witnesses: a fresh two-player interactive round. -/
def c3app : AppState :=
  sampleApp (some (sampleGame 1000 50 0 none)) GamePhase.preflop GameMode.RobotPlay 0

/-- C3: for every game state with at least one player, the computed minRaise
equals `max(2 * currentBet, 10)`, and that function is monotonically
non-decreasing in the current bet. -/
theorem claim_C3_minRaise (s : AppState) (g : GameState) (p : Player) (rest : List Player)
    (hg : s.gameState = some g) (hp : g.players = p :: rest) :
    (updateBetLimits s).minRaise = ((computeMinRaise g.current_bet : Nat) : Int)
    ∧ ∀ c c' : Nat, c ≤ c' → computeMinRaise c ≤ computeMinRaise c' := by
  constructor
  · simp [updateBetLimits, hg, hp]
  · exact fun c c' h => computeMinRaise_mono c c' h

/-- Witness for C3 at a concrete state with current bet 50. -/
theorem claim_C3_minRaise_witness :
    (updateBetLimits c3app).minRaise = ((computeMinRaise 50 : Nat) : Int) :=
  (claim_C3_minRaise c3app (sampleGame 1000 50 0 none) (samplePlayer 1000)
    [sampleRobot] rfl rfl).1

/-- C2: every failed action submission — engine `Err` with a message,
non-success HTTP status, or unreachable engine — leaves the held game state
and the phase unchanged and surfaces exactly the engine's message (for
rejections) or the transport failure description. -/
theorem claim_C2_failure_preserves_state (s : AppState) (m : String) (status : Nat)
    (d : DealResponse) :
    handleAction s (.err m) d = { s with error := some m }
    ∧ handleAction s (.httpError status) d = { s with error := some (httpErrorMessage status) }
    ∧ handleAction s (.networkError m) d = { s with error := some m }
    ∧ (handleAction s (.err m) d).gameState = s.gameState
    ∧ (handleAction s (.err m) d).gamePhase = s.gamePhase
    ∧ (handleAction s (.err m) d).error = some m :=
  ⟨rfl, rfl, rfl, rfl, rfl, rfl⟩

/-- C7: each deal step invoked outside its expected source phase is a silent
no-op — the state (error included) is returned unchanged, whatever the
response would have been — and, consequently, repeating a successful deal
step performs the advancement exactly once, the second call a no-op. -/
theorem claim_C7_deal_guard (s : AppState) (r r2 : DealResponse) (g : GameState) :
    (s.gamePhase ≠ GamePhase.preflop → dealFlop s r = s)
    ∧ (s.gamePhase ≠ GamePhase.flop → dealTurn s r = s)
    ∧ (s.gamePhase ≠ GamePhase.turn → dealRiver s r = s)
    ∧ dealFlop (dealFlop s (.ok g)) r2 = dealFlop s (.ok g)
    ∧ dealTurn (dealTurn s (.ok g)) r2 = dealTurn s (.ok g)
    ∧ dealRiver (dealRiver s (.ok g)) r2 = dealRiver s (.ok g) := by
  refine ⟨dealFlop_of_ne s r, dealTurn_of_ne s r, dealRiver_of_ne s r, ?_, ?_, ?_⟩
  · by_cases h : s.gamePhase = GamePhase.preflop
    · apply dealFlop_of_ne
      simp [dealFlop, h]
    · rw [dealFlop_of_ne s _ h]
      exact dealFlop_of_ne s r2 h
  · by_cases h : s.gamePhase = GamePhase.flop
    · apply dealTurn_of_ne
      simp [dealTurn, h]
    · rw [dealTurn_of_ne s _ h]
      exact dealTurn_of_ne s r2 h
  · by_cases h : s.gamePhase = GamePhase.turn
    · apply dealRiver_of_ne
      simp [dealRiver, h]
    · rw [dealRiver_of_ne s _ h]
      exact dealRiver_of_ne s r2 h

/-- Witness for C7: a deal-flop request arriving while the phase is already
`flop` changes nothing. -/
theorem claim_C7_deal_guard_witness :
    dealFlop (sampleApp none GamePhase.flop GameMode.Simulation 0) (.httpError 500)
      = sampleApp none GamePhase.flop GameMode.Simulation 0 :=
  (claim_C7_deal_guard (sampleApp none GamePhase.flop GameMode.Simulation 0)
    (.httpError 500) (.httpError 500) (sampleGame 1000 0 0 none)).1 (by decide)

/-- C8: over any sequence of operations within a round, every observed phase
transition is either a stay or a move to the immediate successor in
`preflop → flop → turn → river → showdown`, and the phase index never
decreases. -/
theorem claim_C8_phase_monotone (s : AppState) (ops : List Op) :
    List.Chain (fun a b => b = a ∨ b = nextPhase a) s.gamePhase (phaseTraceAux s ops)
    ∧ phaseIdx s.gamePhase ≤ phaseIdx (run s ops).gamePhase := by
  constructor
  · induction ops generalizing s with
    | nil => exact List.Chain.nil
    | cons op ops ih => exact List.Chain.cons (step_gamePhase s op) (ih (step s op))
  · induction ops generalizing s with
    | nil => exact le_refl _
    | cons op ops ih =>
      have h1 : phaseIdx s.gamePhase ≤ phaseIdx (step s op).gamePhase := by
        rcases step_gamePhase s op with h | h
        · rw [h]
        · rw [h]
          exact phaseIdx_le_next s.gamePhase
      exact le_trans h1 (ih (step s op))

/-- C9 (code bug): evaluating the robot-status indicator is not total: the
template calls `player.cards.is_empty()`, which does not exist on JavaScript
arrays, so both the empty-hand and the non-empty-hand cases raise a TypeError
instead of rendering "Folded"/"Active". Moreover the enclosing player
section is never rendered for a robot in RobotPlay mode, so the indicator is
dead code. -/
theorem claim_C9_robot_status_type_error :
    robotStatus GameMode.RobotPlay false sampleRobot
      = Except.error "TypeError: player.cards.is_empty is not a function"
    ∧ robotStatus GameMode.RobotPlay false sampleRobotWithCards
      = Except.error "TypeError: player.cards.is_empty is not a function"
    ∧ playerSectionRendered GameMode.RobotPlay sampleRobot = false :=
  ⟨rfl, rfl, rfl⟩

/-- C10: the `/new-game` request carries a player count of exactly 2 in
RobotPlay mode, regardless of the configured `numPlayers`, which is used only
in Simulation mode. -/
theorem claim_C10_robotplay_player_count (s : AppState) :
    (s.gameMode = GameMode.RobotPlay → (newGameRequest s).num_players = 2)
    ∧ (s.gameMode = GameMode.Simulation → (newGameRequest s).num_players = s.numPlayers) := by
  constructor <;> intro h <;> simp [newGameRequest, h]

/-- Witness for C10 at a state configured with 7 players but RobotPlay mode. -/
theorem claim_C10_robotplay_player_count_witness :
    (newGameRequest
      { sampleApp none GamePhase.preflop GameMode.RobotPlay 0 with numPlayers := 7 }).num_players
      = 2 :=
  (claim_C10_robotplay_player_count
    { sampleApp none GamePhase.preflop GameMode.RobotPlay 0 with numPlayers := 7 }).1 rfl

theorem dealFlop_ok (s : AppState) (g : GameState) (h : s.gamePhase = GamePhase.preflop) :
    dealFlop s (.ok g)
      = { s with error := none, gameState := some g, gamePhase := GamePhase.flop } := by
  simp [dealFlop, h]

theorem dealTurn_ok (s : AppState) (g : GameState) (h : s.gamePhase = GamePhase.flop) :
    dealTurn s (.ok g)
      = { s with error := none, gameState := some g, gamePhase := GamePhase.turn } := by
  simp [dealTurn, h]

theorem dealRiver_ok (s : AppState) (g : GameState) (h : s.gamePhase = GamePhase.turn) :
    dealRiver s (.ok g)
      = { s with error := none, gameState := some g, gamePhase := GamePhase.river } := by
  simp [dealRiver, h]

/-- Accepted Call response used by C1's counterexample and witness. -/
def c1ok : GameState :=
  sampleGame 1000 0 0 (some { action_type := ActionType.Call, amount := none })

/-- C1 counterexample: an accepted Call at preflop whose chained deal-flop
request fails (HTTP 500) leaves the phase at preflop — it does not advance
one step as the claim requires. -/
theorem claim_C1_counterexample :
    isCallOrCheck c1ok.last_action = true
    ∧ (sampleApp none GamePhase.preflop GameMode.RobotPlay 0).gamePhase = GamePhase.preflop
    ∧ (handleAction (sampleApp none GamePhase.preflop GameMode.RobotPlay 0) (.ok c1ok)
        (.httpError 500)).gamePhase = GamePhase.preflop := by
  decide

/-- C1 amended: after an accepted action response, a Call or Check advances
the phase exactly one step provided the chained deal request (when one is
needed) also succeeds; at River the transition to Showdown needs no deal and
always happens, with the reveal flag set; a Fold, Bet or Raise (or a missing
last action) never changes the phase. -/
theorem claim_C1_phase_advance_amended (s : AppState) (g g' : GameState) (d : DealResponse) :
    (isCallOrCheck g.last_action = true →
      (handleAction s (.ok g) (.ok g')).gamePhase = nextPhase s.gamePhase
      ∧ (s.gamePhase = GamePhase.river →
          (handleAction s (.ok g) d).gamePhase = GamePhase.showdown
          ∧ (handleAction s (.ok g) d).showRobotCards = true))
    ∧ (isCallOrCheck g.last_action = false →
        (handleAction s (.ok g) d).gamePhase = s.gamePhase) := by
  constructor
  · intro hcc
    constructor
    · cases h : s.gamePhase with
      | preflop =>
        rw [handleAction_ok_preflop s g (.ok g') hcc h,
          dealFlop_ok _ g' (by rw [updateBetLimits_gamePhase]; exact h)]
        rfl
      | flop =>
        rw [handleAction_ok_flop s g (.ok g') hcc h,
          dealTurn_ok _ g' (by rw [updateBetLimits_gamePhase]; exact h)]
        rfl
      | turn =>
        rw [handleAction_ok_turn s g (.ok g') hcc h,
          dealRiver_ok _ g' (by rw [updateBetLimits_gamePhase]; exact h)]
        rfl
      | river =>
        rw [handleAction_ok_river s g (.ok g') hcc h]
        rfl
      | showdown =>
        rw [handleAction_ok_showdown s g (.ok g') hcc h, updateBetLimits_gamePhase]
        exact h
    · intro hr
      rw [handleAction_ok_river s g d hcc hr]
      exact ⟨rfl, rfl⟩
  · intro hcc
    rw [handleAction_ok_noAdvance s g d hcc, updateBetLimits_gamePhase]

/-- Witness for C1 amended: an accepted Call at River reaches Showdown and
sets the reveal flag. -/
theorem claim_C1_phase_advance_amended_witness :
    (handleAction (sampleApp none GamePhase.river GameMode.RobotPlay 0) (.ok c1ok)
        (.httpError 500)).gamePhase = GamePhase.showdown
    ∧ (handleAction (sampleApp none GamePhase.river GameMode.RobotPlay 0) (.ok c1ok)
        (.httpError 500)).showRobotCards = true :=
  ((claim_C1_phase_advance_amended (sampleApp none GamePhase.river GameMode.RobotPlay 0)
      c1ok (sampleGame 1000 0 0 none) (.httpError 500)).1 rfl).2 rfl

/-- State with a human player holding zero chips: the ceiling `maxBet` is 0. -/
def c4app : AppState :=
  sampleApp (some (sampleGame 0 0 100 none)) GamePhase.preflop GameMode.RobotPlay 0

/-- C4 counterexample: with zero chips, `maxBet = 0 < minRaise = 10`, yet the
clamped amount is bounced back to `minRaise` by the final `betAmount === 0`
check — it does not equal `maxBet` as the claim requires. -/
theorem claim_C4_counterexample :
    (updateBetLimits c4app).maxBet = 0
    ∧ (updateBetLimits c4app).minRaise = 10
    ∧ (updateBetLimits c4app).maxBet < (updateBetLimits c4app).minRaise
    ∧ (updateBetLimits c4app).betAmount = 10
    ∧ (updateBetLimits c4app).betAmount ≠ (updateBetLimits c4app).maxBet := by
  decide

/-- C4 amended: for every state with a local player and every stored proposed
amount, the clamped amount lies in `[minRaise, maxBet]` whenever
`maxBet ≥ minRaise`; whenever `0 < maxBet < minRaise` it equals `maxBet`;
when `maxBet = 0` it equals `minRaise` instead; and it is never below zero. -/
theorem claim_C4_clamp_amended (s : AppState) (g : GameState) (p : Player)
    (rest : List Player) (hg : s.gameState = some g) (hp : g.players = p :: rest) :
    ((updateBetLimits s).minRaise ≤ (updateBetLimits s).maxBet →
      (updateBetLimits s).minRaise ≤ (updateBetLimits s).betAmount
      ∧ (updateBetLimits s).betAmount ≤ (updateBetLimits s).maxBet)
    ∧ ((updateBetLimits s).maxBet < (updateBetLimits s).minRaise →
        0 < (updateBetLimits s).maxBet →
        (updateBetLimits s).betAmount = (updateBetLimits s).maxBet)
    ∧ ((updateBetLimits s).maxBet = 0 →
        (updateBetLimits s).betAmount = (updateBetLimits s).minRaise)
    ∧ 0 ≤ (updateBetLimits s).betAmount := by
  have hc := clampBetAmount_spec s.betAmount ((computeMinRaise g.current_bet : Nat) : Int)
    ((p.chips : Nat) : Int) (computeMinRaise_ge _) (by positivity)
  simp only [updateBetLimits, hg, hp]
  exact hc

/-- Witness for C4 amended at a state where the player covers the raise. -/
theorem claim_C4_clamp_amended_witness :
    (updateBetLimits c3app).minRaise ≤ (updateBetLimits c3app).betAmount
    ∧ (updateBetLimits c3app).betAmount ≤ (updateBetLimits c3app).maxBet :=
  (claim_C4_clamp_amended c3app (sampleGame 1000 50 0 none) (samplePlayer 1000)
    [sampleRobot] rfl rfl).1 (by decide)

/-- State after the bet limits were recomputed over a 20-chip pot. -/
def c6base : AppState :=
  updateBetLimits (sampleApp (some (sampleGame 1000 0 20 none)) GamePhase.preflop
    GameMode.RobotPlay 0)

/-- State after a quarter-pot quick bet on `c6base`. -/
def c6quick : AppState := setQuickBet c6base 1 4

/-- C6 counterexample: a quarter-pot quick bet over a 20-chip pot sets the
presented amount to 5, strictly below `minRaise = 10`, although
`maxBet = 1000 ≥ minRaise` — the claimed invariant fails after a quick-bet
preset selection. -/
theorem claim_C6_counterexample :
    c6base.minRaise = 10 ∧ c6base.maxBet = 1000
    ∧ c6quick.minRaise = 10 ∧ c6quick.maxBet = 1000
    ∧ c6quick.betAmount = 5
    ∧ c6quick.betAmount < c6quick.minRaise := by
  decide

/-- C6 amended: after an update of the bet limits the invariant
`minRaise ≤ betAmount ≤ maxBet` holds whenever `maxBet ≥ minRaise`; a
quick-bet preset guarantees only the upper bound `betAmount ≤ maxBet`
(leaving both limits unchanged) and may set the amount below `minRaise`. -/
theorem claim_C6_bet_ui_invariant (s : AppState) (num den : Nat) (g : GameState)
    (hg : s.gameState = some g) :
    ((updateBetLimits s).minRaise ≤ (updateBetLimits s).maxBet →
      (updateBetLimits s).minRaise ≤ (updateBetLimits s).betAmount
      ∧ (updateBetLimits s).betAmount ≤ (updateBetLimits s).maxBet)
    ∧ (setQuickBet s num den).betAmount ≤ s.maxBet
    ∧ (setQuickBet s num den).minRaise = s.minRaise
    ∧ (setQuickBet s num den).maxBet = s.maxBet := by
  refine ⟨?_, ?_, ?_, ?_⟩
  · cases hp : g.players with
    | nil =>
      intro hle
      simp [updateBetLimits, hg, hp]
    | cons p rest =>
      intro hle
      have hc := (clampBetAmount_spec s.betAmount ((computeMinRaise g.current_bet : Nat) : Int)
        ((p.chips : Nat) : Int) (computeMinRaise_ge _) (by positivity)).1
      simp only [updateBetLimits, hg, hp] at hle ⊢
      exact hc hle
  · simp only [setQuickBet, hg]
    exact min_le_right _ _
  · simp only [setQuickBet, hg]
  · simp only [setQuickBet, hg]

/-- Witness for C6 amended: a half-pot quick bet never exceeds `maxBet`. -/
theorem claim_C6_bet_ui_invariant_witness :
    (setQuickBet c3app 1 2).betAmount ≤ c3app.maxBet :=
  (claim_C6_bet_ui_invariant c3app 1 2 (sampleGame 1000 50 0 none) rfl).2.1

/-- Component state right after a new Simulation round is accepted. -/
def c5simStart : AppState :=
  startNewGame (sampleApp none GamePhase.preflop GameMode.Simulation 0)
    (.ok (sampleGame 1000 0 0 none))

/-- C5 counterexample: in a freshly started Simulation round (phase preflop,
reveal flag false) the spec's rule makes the robot's hand visible, but the
template renders card backs; and in RobotPlay mode at showdown (reveal flag
true) the spec's rule makes it visible, but the robot's player section is not
rendered at all. -/
theorem claim_C5_counterexample :
    c5simStart.gameMode = GameMode.Simulation
    ∧ c5simStart.gamePhase = GamePhase.preflop
    ∧ c5simStart.showRobotCards = false
    ∧ handVisibleSpec c5simStart.gameMode c5simStart.gamePhase sampleRobot = true
    ∧ handVisible c5simStart.gameMode c5simStart.showRobotCards sampleRobot = false
    ∧ handVisibleSpec GameMode.RobotPlay GamePhase.showdown sampleRobot = true
    ∧ handVisible GameMode.RobotPlay true sampleRobot = false := by
  decide

/-- C5 amended: the local player's hand is always visible; a remote-controlled
player's hand is visible iff the mode is Simulation and the reveal flag is
set. The reveal flag is only ever set together with the transition into
Showdown (every operation preserves the invariant that a set flag implies
phase Showdown, and a new round starts with it cleared), so a remote hand is
in particular never visible strictly before Showdown. -/
theorem claim_C5_reveal_amended (mode : GameMode) (src : Bool) (p : Player) :
    (p.is_robot = false → handVisible mode src p = true)
    ∧ (p.is_robot = true →
        (handVisible mode src p = true ↔ (mode = GameMode.Simulation ∧ src = true)))
    ∧ (∀ (s : AppState) (op : Op),
        (s.showRobotCards = true → s.gamePhase = GamePhase.showdown) →
        (step s op).showRobotCards = true → (step s op).gamePhase = GamePhase.showdown)
    ∧ (∀ (s : AppState) (g : GameState), (startNewGame s (.ok g)).showRobotCards = false) := by
  refine ⟨?_, ?_, ?_, ?_⟩
  · intro h
    simp [handVisible, playerSectionRendered, playerCardsShown, h]
  · intro h
    cases mode <;> cases src <;>
      simp [handVisible, playerSectionRendered, playerCardsShown, h]
  · intro s op hinv htrue
    cases op with
    | flop r =>
      simp only [step] at htrue ⊢
      rw [dealFlop_showRobotCards] at htrue
      have hph := hinv htrue
      rw [dealFlop_of_ne s r (by rw [hph]; decide)]
      exact hph
    | turn r =>
      simp only [step] at htrue ⊢
      rw [dealTurn_showRobotCards] at htrue
      have hph := hinv htrue
      rw [dealTurn_of_ne s r (by rw [hph]; decide)]
      exact hph
    | river r =>
      simp only [step] at htrue ⊢
      rw [dealRiver_showRobotCards] at htrue
      have hph := hinv htrue
      rw [dealRiver_of_ne s r (by rw [hph]; decide)]
      exact hph
    | action resp deal =>
      simp only [step] at htrue ⊢
      cases resp with
      | err m => exact hinv htrue
      | invalid => exact hinv htrue
      | httpError st => exact hinv htrue
      | networkError m => exact hinv htrue
      | ok g =>
        by_cases hcc : isCallOrCheck g.last_action
        · cases h : s.gamePhase with
          | preflop =>
            rw [handleAction_ok_preflop s g deal hcc h] at htrue
            rw [dealFlop_showRobotCards, updateBetLimits_showRobotCards] at htrue
            have hph := hinv htrue
            rw [h] at hph
            exact absurd hph (by decide)
          | flop =>
            rw [handleAction_ok_flop s g deal hcc h] at htrue
            rw [dealTurn_showRobotCards, updateBetLimits_showRobotCards] at htrue
            have hph := hinv htrue
            rw [h] at hph
            exact absurd hph (by decide)
          | turn =>
            rw [handleAction_ok_turn s g deal hcc h] at htrue
            rw [dealRiver_showRobotCards, updateBetLimits_showRobotCards] at htrue
            have hph := hinv htrue
            rw [h] at hph
            exact absurd hph (by decide)
          | river =>
            rw [handleAction_ok_river s g deal hcc h]
          | showdown =>
            rw [handleAction_ok_showdown s g deal hcc h, updateBetLimits_gamePhase]
            exact h
        · rw [handleAction_ok_noAdvance s g deal (Bool.eq_false_iff.mpr hcc)] at htrue ⊢
          rw [updateBetLimits_showRobotCards] at htrue
          rw [updateBetLimits_gamePhase]
          exact hinv htrue
  · intro s g
    rfl

/-- Witness for C5 amended: the local player's hand is visible even with the
reveal flag down in interactive play. -/
theorem claim_C5_reveal_amended_witness :
    handVisible GameMode.RobotPlay false (samplePlayer 1000) = true :=
  (claim_C5_reveal_amended GameMode.RobotPlay false (samplePlayer 1000)).1 rfl

end Pokerbot
